import Mathlib

/-!
Verification of the listing/filtering pipeline of gluster-swift's
`gluster/swift/common/DiskDir.py`.

Python (2.x) byte strings are modelled as lists of natural numbers (byte
values); Python's string comparison is byte-lexicographic, modelled by
`pyLt` below.  The five filter generators and the two listing methods
(`DiskDir.list_objects_iter`, `DiskAccount.list_containers_iter`) are
translated directly from the source.  External collaborators that live
outside the translated module (the metadata reader `read_metadata`, the
synthesizers `create_object_metadata` / `create_container_metadata`, the
validators `validate_object` / `validate_container`, `dir_is_object` and
the `Glusterfs._implicit_dir_objects` configuration flag) are passed in
as oracle parameters, as the source only branches on their outcomes.
-/

deriving instance DecidableEq for Except

namespace DiskDir

/-- A Python 2 byte string: a list of byte values. -/
abbrev Str := List Nat

/-- Convenience: build a `Str` from a Lean string literal (code points). -/
def str (s : String) : Str := s.data.map Char.toNat

/-- Python's `<` on byte strings: byte-lexicographic comparison, a shorter
string that is a prefix of a longer one being smaller. -/
def pyLt : Str → Str → Bool
  | _, [] => false
  | [], _ :: _ => true
  | a :: s, b :: t => if a < b then true else if b < a then false else pyLt s t

/-- Python truthiness of an optional string (`None` and `""` are falsy). -/
def pyTruthy : Option Str → Bool
  | none => false
  | some s => !s.isEmpty

/-- Helper for `strFind`: scan a list for byte `c`, counting from index `i`. -/
def strFindAux (c : Nat) : Str → Nat → Option Nat
  | [], _ => none
  | a :: s, i => if a = c then some i else strFindAux c s (i + 1)

/-- Python's `s.find(chr c, start)`: index of the first occurrence of byte
`c` in `s` at or after `start` (`none` models the `-1` result). -/
def strFind (s : Str) (c : Nat) (start : Nat) : Option Nat :=
  strFindAux c (s.drop start) start

/-- Python's `s.rstrip('/')`: drop all trailing `'/'` (byte 47). -/
def rstripSlash (s : Str) : Str :=
  (s.reverse.dropWhile (fun a => a = 47)).reverse

/-- Insertion step for `pySort`. -/
def pyInsert (x : Str) : List Str → List Str
  | [] => [x]
  | y :: r => if pyLt x y then x :: y :: r else y :: pyInsert x r

/-- Python's `list.sort()` on strings (ascending); modelled by insertion
sort, which agrees with any stable ascending sort on strings. -/
def pySort (l : List Str) : List Str := l.foldr pyInsert []

/-- Loop of `filter_prefix` (DiskDir.py lines 67-83): the Boolean is the
`found` flag; a non-matching name breaks the loop once a match was seen. -/
def filter_prefix_go (p : Str) : List Str → Bool → List Str
  | [], _ => []
  | o :: r, found =>
    if p.isPrefixOf o then o :: filter_prefix_go p r true
    else if found then [] else filter_prefix_go p r found

/-- `filter_prefix(objects, prefix)` (DiskDir.py lines 67-83). -/
def filter_prefix (objects : List Str) (p : Str) : List Str :=
  filter_prefix_go p objects false

/-- Python's `if skip_name: ... object_name < skip_name` test: the
`skip_name` cursor is active and the name is still below it.  (A set
cursor is never the empty string, so Python's truthiness test agrees
with the `Option` match.) -/
def skipActive (n : Str) : Option Str → Bool
  | some s => pyLt n s
  | none => false

/-- The `path is not None` arm of `filter_delimiter`'s loop (DiskDir.py
lines 95-109 and 123).  The `Option Str` argument is the `skip_name`
cursor.  `marker` is not consulted in this arm (the source never emits a
`dir_name` here). -/
def filter_delimiter_go_path (d : Nat) (p : Str) (q : Str) :
    List Str → Option Str → List Str
  | [], _ => []
  | n :: rest, skip =>
    if !p.isEmpty && !(p.isPrefixOf n) then []
    else if n = q then filter_delimiter_go_path d p q rest skip
    else if skipActive n skip then filter_delimiter_go_path d p q rest skip
    else
      match strFind n d p.length with
      | some e =>
        if e + 1 < n.length then
          filter_delimiter_go_path d p q rest (some (n.take e ++ [d + 1]))
        else n :: filter_delimiter_go_path d p q rest none
      | none => n :: filter_delimiter_go_path d p q rest none

/-- The `path is None` arm of `filter_delimiter`'s loop (DiskDir.py lines
95-97 and 110-123). -/
def filter_delimiter_go_nopath (d : Nat) (p : Str) (marker : Option Str) :
    List Str → Option Str → List Str
  | [], _ => []
  | n :: rest, skip =>
    if !p.isEmpty && !(p.isPrefixOf n) then []
    else if skipActive n skip then filter_delimiter_go_nopath d p marker rest skip
    else
      match strFind n d p.length with
      | some e =>
        if 0 < e then
          (if marker = some (n.take (e + 1)) then [] else [n.take (e + 1)]) ++
            filter_delimiter_go_nopath d p marker rest (some (n.take e ++ [d + 1]))
        else n :: filter_delimiter_go_nopath d p marker rest none
      | none => n :: filter_delimiter_go_nopath d p marker rest none

/-- `filter_delimiter(objects, delimiter, prefix, marker, path)`
(DiskDir.py lines 85-123).  `marker` and `path` may be Python `None`;
`dir_name != marker` is modelled by comparison with `some dir_name`.
The source tests `path is not None` inside its loop; as `path` is loop
invariant the test is hoisted into this wrapper. -/
def filter_delimiter (objects : List Str) (d : Nat) (p : Str)
    (marker : Option Str) (path : Option Str) : List Str :=
  match path with
  | some q => filter_delimiter_go_path d p q objects none
  | none => filter_delimiter_go_nopath d p marker objects none

/-- `filter_marker(objects, marker)` (DiskDir.py lines 126-133): yield the
names strictly greater than `marker`; no early exit. -/
def filter_marker : List Str → Str → List Str
  | [], _ => []
  | o :: r, m => if pyLt m o then o :: filter_marker r m else filter_marker r m

/-- `filter_prefix_as_marker(objects, prefix)` (DiskDir.py lines 136-143):
yield the names greater than or equal to `prefix`; no early exit. -/
def filter_prefix_as_marker : List Str → Str → List Str
  | [], _ => []
  | o :: r, p =>
    if !pyLt o p then o :: filter_prefix_as_marker r p
    else filter_prefix_as_marker r p

/-- `filter_end_marker(objects, end_marker)` (DiskDir.py lines 146-156):
yield names strictly below `end_marker`, breaking at the first name that
reaches the bound. -/
def filter_end_marker : List Str → Str → List Str
  | [], _ => []
  | o :: r, em => if pyLt o em then o :: filter_end_marker r em else []

/-- Modelled from the spec: the record metadata attached to an object name
by the external Record Metadata Resolver (`read_metadata` /
`create_object_metadata` in `gluster.swift.common.utils`, not part of the
translated module).  `validObject` is the outcome of `validate_object`,
`dirIsObject` the outcome of `dir_is_object`. -/
structure ObjMeta where
  timestamp : Str
  contentLength : Int
  contentType : Str
  etag : Str
  validObject : Bool
  dirIsObject : Bool
deriving DecidableEq, Repr

/-- Modelled from the spec: outcome of `read_metadata` on an object path.
`race` is a `GlusterFileSystemIOError` with errno `ENOENT`/`ESTALE`
(the benign deletion race), `fatal` any other `GlusterFileSystemIOError`,
`ok none` an empty (falsy) metadata dict. -/
inductive ReadRes
  | race
  | fatal
  | ok (m : Option ObjMeta)
deriving DecidableEq, Repr

/-- Modelled from the spec: outcome of `create_object_metadata`.  `race`
is an `OSError` with errno `ENOENT`/`ESTALE` (swallowed by the caller),
`fatal` any other `OSError` (re-raised). -/
inductive CreateRes
  | race
  | fatal
  | ok (m : ObjMeta)
deriving DecidableEq, Repr

/-- One row of an object listing: the name, and optionally the four
metadata fields `(timestamp, size, content_type, etag)`; `none` models a
`list_item` to which no metadata fields were appended. -/
structure ObjRow where
  name : Str
  fields : Option (Str × Int × Str × Str)
deriving DecidableEq, Repr

/-- The `'text/plain'` content type. -/
def textPlain : Str := str "text/plain"

/-- Modelled from the spec: the `DIR_TYPE` placeholder content type of
`gluster.swift.common.utils` (`'application/directory'`). -/
def DIR_TYPE : Str := str "application/directory"

/-- The `clean_obj_path` computation (DiskDir.py lines 496-499), applied
to the name (the common `datadir` prefix of `obj_path` is irrelevant to
the oracles). -/
def cleanObj (d : Option Nat) (o : Str) : Str :=
  if d = some 47 ∧ o.getLast? = some 47 then o.dropLast else o

/-- The plain-listing loop of `list_objects_iter` (DiskDir.py lines
475-478): append a `(obj, '0', 0, 'text/plain', '')` row, then break once
the accumulated length (`n` names were already appended) reaches `limit`. -/
def plainLoop (limit : Nat) : List Str → Nat → List ObjRow
  | [], _ => []
  | o :: rest, n =>
    ⟨o, some (str "0", (0 : Int), textPlain, [])⟩ ::
      (if n + 1 ≥ limit then [] else plainLoop limit rest (n + 1))

/-- The test `not metadata or not validate_object(metadata)` of
DiskDir.py line 495. -/
def invalidMeta : Option ObjMeta → Bool
  | none => true
  | some mv => !mv.validObject

/-- Lines 495-506 of DiskDir.py: when the stored metadata is empty or
fails `validate_object`, attempt `create_object_metadata`; a swallowed
`ENOENT`/`ESTALE` leaves the previously read value in `metadata`, any
other `OSError` is re-raised, and a success replaces it. -/
def resolveMeta (createM : Str → CreateRes) (d : Option Nat) (o : Str)
    (m0 : Option ObjMeta) : Except Unit (Option ObjMeta) :=
  if invalidMeta m0 then
    match createM (cleanObj d o) with
    | CreateRes.race => Except.ok m0
    | CreateRes.fatal => Except.error ()
    | CreateRes.ok m1 => Except.ok (some m1)
  else Except.ok m0

/-- Lines 507-510 of DiskDir.py: skip a placeholder directory object when
the configuration disallows implicit directory objects. -/
def isImplicitDirSkip (implicitDirObjects : Bool) (m2 : Option ObjMeta) : Bool :=
  !implicitDirObjects &&
    (match m2 with
     | some mv => decide (mv.contentType = DIR_TYPE) && !mv.dirIsObject
     | none => false)

/-- Lines 511-517 of DiskDir.py: the assembled `list_item` (metadata
fields are appended only when `metadata` is truthy). -/
def mkObjRow (o : Str) (m2 : Option ObjMeta) : ObjRow :=
  ⟨o, m2.map (fun mv => (mv.timestamp, mv.contentLength, mv.contentType, mv.etag))⟩

/-- The full-mode assembly loop of `list_objects_iter` (DiskDir.py lines
483-521), from a state where `count` rows have been appended.  A `fatal`
oracle outcome propagates (`Except.error`), matching the re-raised
exceptions. -/
def fullLoop (readM : Str → ReadRes) (createM : Str → CreateRes)
    (d : Option Nat) (implicitDirObjects : Bool) (limit : Nat) :
    List Str → Nat → Except Unit (List ObjRow)
  | [], _ => Except.ok []
  | o :: rest, count =>
    match readM o with
    | ReadRes.race => fullLoop readM createM d implicitDirObjects limit rest count
    | ReadRes.fatal => Except.error ()
    | ReadRes.ok m0 =>
      match resolveMeta createM d o m0 with
      | Except.error _ => Except.error ()
      | Except.ok m2 =>
        if isImplicitDirSkip implicitDirObjects m2 then
          fullLoop readM createM d implicitDirObjects limit rest count
        else
          Except.map (fun t => mkObjRow o m2 :: t)
            (if count + 1 ≥ limit then Except.ok []
             else fullLoop readM createM d implicitDirObjects limit rest (count + 1))

/-- Reverse a list when the flag is set (`container_list.reverse()`). -/
def revIf (b : Bool) (l : List α) : List α := if b then l.reverse else l

/-- The filter pipeline of both listing methods (DiskDir.py lines 435-458
and 808-832), applied to the sorted name list, with the (post-swap)
`marker`/`end_marker` and the (preprocessed) `pfx`/`delimiter`/`path`. -/
def filterPipeline (objs0 : List Str) (m em p : Option Str)
    (d : Option Nat) (path2 : Option Str) : List Str :=
  let objs1 :=
    match em with
    | some e => if !e.isEmpty then filter_end_marker objs0 e else objs0
    | none => objs0
  let objs2 :=
    match m, p with
    | some mv, some pv =>
      if !mv.isEmpty && !(pyLt mv pv) then filter_marker objs1 mv
      else if !pv.isEmpty then filter_prefix_as_marker objs1 pv else objs1
    | some mv, none =>
      if !mv.isEmpty then filter_marker objs1 mv else objs1
    | none, some pv =>
      if !pv.isEmpty then filter_prefix_as_marker objs1 pv else objs1
    | none, none => objs1
  match p, d with
  | none, _ => objs2
  | some pv, none => if pv.isEmpty then objs2 else filter_prefix objs2 pv
  | some pv, some dv => filter_delimiter objs2 dv pv m path2

/-- Body of `list_objects_iter` after the `reverse` marker swap of
DiskDir.py lines 432-433: filters, then the plain or full assembly loop,
then the final `container_list.reverse()`. -/
def list_objects_core (readM : Str → ReadRes) (createM : Str → CreateRes)
    (implicitDirObjects : Bool) (gsexpiring : Bool) (objs0 : List Str)
    (limit : Nat) (m em p : Option Str) (d : Option Nat)
    (path2 : Option Str) (out_content_type : Option Str) (reverse : Bool) :
    Except Unit (List ObjRow) :=
  let objs3 := filterPipeline objs0 m em p d path2
  if out_content_type = some textPlain || gsexpiring then
    Except.ok (revIf reverse (plainLoop limit objs3 0))
  else
    Except.map (revIf reverse)
      (fullLoop readM createM d implicitDirObjects limit objs3 0)

/-- The `path`/`prefix`/`delimiter` preprocessing of `list_objects_iter`
(DiskDir.py lines 411-418): a set `path` is normalised to end in `'/'`
and forces `prefix = path` and `delimiter = '/'`; otherwise a set
delimiter with a falsy prefix forces `prefix = ''`.  Returns the
effective `(prefix, delimiter, path)`. -/
def preprocessPath (path : Option Str) (delimiter : Option Nat)
    (pfx : Option Str) : Option Str × Option Nat × Option Str :=
  match path with
  | some pa =>
    if !pa.isEmpty then
      (some (rstripSlash pa ++ [47]), some 47, some (rstripSlash pa ++ [47]))
    else (some [], some 47, some [])
  | none =>
    if delimiter.isSome && !(pyTruthy pfx) then (some [], delimiter, none)
    else (pfx, delimiter, none)

/-- `DiskDir.list_objects_iter` (DiskDir.py lines 401-524).  `objects` is
the name list produced by the external Name Source
(`_update_object_count` / `list_objects_gsexpiring_container`); the
method sorts it and never reads it again, so it is a parameter.
`gsexpiring` models `self.account == 'gsexpiring'`, `implicitDirObjects`
the `Glusterfs._implicit_dir_objects` flag. -/
def list_objects_iter (readM : Str → ReadRes) (createM : Str → CreateRes)
    (implicitDirObjects : Bool) (gsexpiring : Bool) (objects : List Str)
    (limit : Nat) (marker end_marker pfx : Option Str)
    (delimiter : Option Nat) (path : Option Str)
    (out_content_type : Option Str) (reverse : Bool) :
    Except Unit (List ObjRow) :=
  let pdp := preprocessPath path delimiter pfx
  if objects.isEmpty then Except.ok [] else
  let mm : Option Str × Option Str :=
    if pyTruthy marker && pyTruthy end_marker && reverse then (end_marker, marker)
    else (marker, end_marker)
  list_objects_core readM createM implicitDirObjects gsexpiring
    (pySort objects) limit mm.1 mm.2 pdp.1 pdp.2.1 pdp.2.2
    out_content_type reverse

/-- Modelled from the spec: container record metadata produced by the
external `_read_metadata` / `create_container_metadata`; `validContainer`
is the outcome of `validate_container`. -/
structure ContMeta where
  objectCount : Int
  bytesUsed : Int
  validContainer : Bool
deriving DecidableEq, Repr

/-- Modelled from the spec: outcome of `_read_metadata` on a container
path.  `list_containers_iter` wraps no `try` around it, so any error is
fatal for the call. -/
inductive CReadRes
  | err
  | ok (m : Option ContMeta)
deriving DecidableEq, Repr

/-- Modelled from the spec: outcome of `create_container_metadata` inside
`list_containers_iter` (`race` = swallowed `ENOENT`/`ESTALE`, `fatal` =
re-raised `OSError`). -/
inductive CCreateRes
  | race
  | fatal
  | ok (m : ContMeta)
deriving DecidableEq, Repr

/-- One row of a container listing: the name and optionally
`(object_count, bytes_used, 0)`. -/
structure ContRow where
  name : Str
  fields : Option (Int × Int × Nat)
deriving DecidableEq, Repr

/-- The plain-listing loop of `list_containers_iter` (DiskDir.py lines
848-854): append `(container, 0, 0, 0)`, break once the accumulated
length reaches `limit`. -/
def contPlainLoop (limit : Nat) : List Str → Nat → List ContRow
  | [], _ => []
  | c :: rest, n =>
    ⟨c, some ((0 : Int), (0 : Int), (0 : Nat))⟩ ::
      (if n + 1 ≥ limit then [] else contPlainLoop limit rest (n + 1))

/-- The test `not metadata or not validate_container(metadata)` of
DiskDir.py line 866. -/
def invalidContMeta : Option ContMeta → Bool
  | none => true
  | some mv => !mv.validContainer

/-- Lines 866-873 of DiskDir.py: when the stored container metadata is
empty or fails `validate_container`, attempt `create_container_metadata`
with the same swallowed-race behavior as for objects. -/
def resolveContMeta (createM : Str → CCreateRes) (c : Str)
    (m0 : Option ContMeta) : Except Unit (Option ContMeta) :=
  if invalidContMeta m0 then
    match createM c with
    | CCreateRes.race => Except.ok m0
    | CCreateRes.fatal => Except.error ()
    | CCreateRes.ok m1 => Except.ok (some m1)
  else Except.ok m0

/-- Lines 861-877 of DiskDir.py: the assembled container `list_item`. -/
def mkContRow (c : Str) (m2 : Option ContMeta) : ContRow :=
  ⟨c, m2.map (fun mv => (mv.objectCount, mv.bytesUsed, (0 : Nat)))⟩

/-- The full-mode assembly loop of `list_containers_iter` (DiskDir.py
lines 859-881). -/
def contFullLoop (readM : Str → CReadRes) (createM : Str → CCreateRes)
    (limit : Nat) : List Str → Nat → Except Unit (List ContRow)
  | [], _ => Except.ok []
  | c :: rest, count =>
    match readM c with
    | CReadRes.err => Except.error ()
    | CReadRes.ok m0 =>
      match resolveContMeta createM c m0 with
      | Except.error _ => Except.error ()
      | Except.ok m2 =>
        Except.map (fun t => mkContRow c m2 :: t)
          (if count + 1 ≥ limit then Except.ok []
           else contFullLoop readM createM limit rest (count + 1))

/-- Body of `list_containers_iter` after the `reverse` marker swap of
DiskDir.py lines 805-806.  The two `if containers:` truthiness guards of
the source (lines 808 and 811) are omitted: at line 808 the list is
non-empty (the method returned early otherwise) and at line 811 the
value is a generator, which is always truthy. -/
def list_containers_core (readM : Str → CReadRes) (createM : Str → CCreateRes)
    (gsexpiring : Bool) (cs0 : List Str) (limit : Nat) (m em p : Option Str)
    (delimiter : Option Nat) (response_content_type : Option Str)
    (reverse : Bool) : Except Unit (List ContRow) :=
  let cs3 := filterPipeline cs0 m em p delimiter none
  if response_content_type = some textPlain || gsexpiring then
    Except.ok (revIf reverse (contPlainLoop limit cs3 0))
  else
    Except.map (revIf reverse) (contFullLoop readM createM limit cs3 0)

/-- `DiskAccount.list_containers_iter` (DiskDir.py lines 788-884). -/
def list_containers_iter (readM : Str → CReadRes) (createM : Str → CCreateRes)
    (gsexpiring : Bool) (containers : List Str) (limit : Nat)
    (marker end_marker pfx : Option Str) (delimiter : Option Nat)
    (response_content_type : Option Str) (reverse : Bool) :
    Except Unit (List ContRow) :=
  let p : Option Str :=
    if delimiter.isSome && !(pyTruthy pfx) then some [] else pfx
  if containers.isEmpty then Except.ok [] else
  let mm : Option Str × Option Str :=
    if pyTruthy marker && pyTruthy end_marker && reverse then (end_marker, marker)
    else (marker, end_marker)
  list_containers_core readM createM gsexpiring (pySort containers) limit
    mm.1 mm.2 p delimiter response_content_type reverse

/-! ### Basic facts about the byte-string order -/

theorem pyLt_nil_right (s : Str) : pyLt s [] = false := by
  cases s <;> rfl

/-- `pyLt` on two cons cells, phrased through `decide` for rewriting. -/
theorem pyLt_cons (a b : Nat) (s t : Str) :
    pyLt (a :: s) (b :: t) = (decide (a < b) || (decide (a = b) && pyLt s t)) := by
  simp only [pyLt]
  by_cases h1 : a < b
  · simp [h1]
  · by_cases h2 : b < a
    · have h3 : a ≠ b := by omega
      simp [h1, h2, h3]
    · have h3 : a = b := by omega
      simp [h1, h2, h3]

/-- Transitivity of the reflexive order `¬ pyLt`. -/
theorem pyLe_trans : ∀ (g n m : Str), pyLt n g = false → pyLt m n = false →
    pyLt m g = false := by
  intro g
  induction g with
  | nil => intro n m _ _; exact pyLt_nil_right m
  | cons c gs ih =>
    intro n m h1 h2
    cases n with
    | nil => simp [pyLt] at h1
    | cons y ns =>
      cases m with
      | nil => simp [pyLt] at h2
      | cons z ms =>
        rw [pyLt_cons] at h1 h2 ⊢
        simp only [Bool.or_eq_false_iff, Bool.and_eq_false_iff,
          decide_eq_false_iff_not, decide_eq_true_eq] at h1 h2 ⊢
        refine ⟨by omega, ?_⟩
        by_cases hzc : z = c
        · subst hzc
          have hy : y = z := by omega
          subst hy
          rcases h1.2 with h | h
          · omega
          · rcases h2.2 with h' | h'
            · omega
            · exact Or.inr (ih ns ms h h')
        · exact Or.inl hzc

/-- A string never compares strictly below one of its prefixes. -/
theorem isPrefixOf_not_pyLt : ∀ (p s : Str), p.isPrefixOf s = true →
    pyLt s p = false := by
  intro p
  induction p with
  | nil => intro s _; exact pyLt_nil_right s
  | cons a ps ih =>
    intro s h
    cases s with
    | nil => simp [List.isPrefixOf] at h
    | cons b t =>
      simp only [List.isPrefixOf, Bool.and_eq_true, beq_iff_eq] at h
      obtain ⟨rfl, h2⟩ := h
      rw [pyLt_cons]
      simp [ih t h2]

/-- The half-open byte-string interval `[x ++ [c], x ++ [c+1])` contains
exactly the strings extending `x ++ [c]`: the successor-byte bound used
by `filter_delimiter`'s `skip_name` cursor. -/
theorem pyLt_interval : ∀ (x : Str) (c : Nat) (m : Str),
    pyLt m (x ++ [c]) = false → pyLt m (x ++ [c + 1]) = true →
    (x ++ [c]).isPrefixOf m = true := by
  intro x
  induction x with
  | nil =>
    intro c m h1 h2
    cases m with
    | nil => simp [pyLt] at h1
    | cons a t =>
      simp only [List.nil_append] at h1 h2 ⊢
      rw [pyLt_cons] at h1 h2
      rw [pyLt_nil_right] at h1 h2
      simp only [Bool.and_false, Bool.or_false, decide_eq_false_iff_not,
        decide_eq_true_eq] at h1 h2
      have : a = c := by omega
      subst this
      simp [List.isPrefixOf]
  | cons h xs ih =>
    intro c m h1 h2
    cases m with
    | nil => simp [pyLt] at h1
    | cons a t =>
      simp only [List.cons_append] at h1 h2 ⊢
      rw [pyLt_cons] at h1 h2
      simp only [Bool.or_eq_false_iff, Bool.and_eq_false_iff,
        decide_eq_false_iff_not, Bool.or_eq_true, Bool.and_eq_true,
        decide_eq_true_eq] at h1 h2
      rcases h2 with h2 | ⟨rfl, h2⟩
      · exact absurd h2 h1.1
      · rcases h1.2 with h' | h'
        · omega
        · have := ih c t h' h2
          simp [List.isPrefixOf, this]

/-! ### Facts about `strFind` and prefixes -/

theorem strFindAux_spec : ∀ (l : Str) (c i e : Nat),
    strFindAux c l i = some e → i ≤ e ∧ l[e - i]? = some c := by
  intro l
  induction l with
  | nil => intro c i e h; simp [strFindAux] at h
  | cons a s ih =>
    intro c i e h
    by_cases hac : a = c
    · rw [strFindAux, if_pos hac] at h
      have : i = e := by simpa using h
      subst this
      simp [hac]
    · rw [strFindAux, if_neg hac] at h
      obtain ⟨h1, h2⟩ := ih c (i + 1) e h
      refine ⟨by omega, ?_⟩
      have he : e - i = (e - (i + 1)) + 1 := by omega
      rw [he]
      simpa using h2

theorem strFind_spec (s : Str) (c start e : Nat)
    (h : strFind s c start = some e) : start ≤ e ∧ s[e]? = some c := by
  obtain ⟨h1, h2⟩ := strFindAux_spec (s.drop start) c start e h
  refine ⟨h1, ?_⟩
  rw [List.getElem?_drop] at h2
  have : start + (e - start) = e := by omega
  rwa [this] at h2

/-- When `strFind` reports the delimiter at index `e`, taking one more
byte appends exactly the delimiter. -/
theorem take_succ_of_strFind (s : Str) (c start e : Nat)
    (h : strFind s c start = some e) : s.take (e + 1) = s.take e ++ [c] := by
  obtain ⟨-, h2⟩ := strFind_spec s c start e h
  rw [List.take_succ, h2]
  rfl

theorem isPrefixOf_trans {a b c : Str} (h1 : a.isPrefixOf b = true)
    (h2 : b.isPrefixOf c = true) : a.isPrefixOf c = true := by
  rw [ List.isPrefixOf_iff_prefix] at h1 h2 ⊢
  exact h1.trans h2

theorem isPrefixOf_take {p n : Str} {k : Nat} (h : p.isPrefixOf n = true)
    (hk : p.length ≤ k) : p.isPrefixOf (n.take k) = true := by
  rw [ List.isPrefixOf_iff_prefix] at h ⊢
  rw [List.prefix_iff_eq_take] at h ⊢
  rw [List.take_take, Nat.min_eq_left hk]
  exact h

theorem take_isPrefixOf (n : Str) (k : Nat) : (n.take k).isPrefixOf n = true := by
  rw [ List.isPrefixOf_iff_prefix]
  exact List.take_prefix k n

/-- `takeWhile` is the longest prefix of elements satisfying the
predicate: any prefix all of whose elements satisfy it is a prefix of it. -/
theorem prefix_takeWhile_of_all {α : Type} (p : α → Bool) :
    ∀ (t l : List α), t <+: l → (∀ x ∈ t, p x = true) → t <+: l.takeWhile p := by
  intro t
  induction t with
  | nil => intro l _ _; exact List.nil_prefix ..
  | cons a t' ih =>
    intro l hpre hall
    obtain ⟨r, rfl⟩ := hpre
    rw [List.cons_append, List.takeWhile_cons, hall a (by simp)]
    exact List.cons_prefix_cons.mpr
      ⟨rfl, ih (t' ++ r) (List.prefix_append t' r)
        (fun x hx => hall x (by simp [hx]))⟩

/-! ### The marker, prefix and end-marker filters (claims C4, C5, C6) -/

theorem filter_marker_eq_filter (S : List Str) (m : Str) :
    filter_marker S m = S.filter (fun x => pyLt m x) := by
  induction S with
  | nil => rfl
  | cons o r ih =>
    cases h : pyLt m o with
    | true => simp [filter_marker, List.filter_cons, h, ih]
    | false => simp [filter_marker, List.filter_cons, h, ih]

/-- C4: `filter_marker(S, marker)` outputs exactly the elements of `S`
strictly greater than `marker`, in their original order (it equals
`List.filter`, membership is characterised by strict dominance over the
marker, and the output is a sublist of the input). -/
theorem C4_filter_marker_exact (S : List Str) (m : Str) :
    filter_marker S m = S.filter (fun x => pyLt m x) ∧
    (∀ x : Str, x ∈ filter_marker S m ↔ x ∈ S ∧ pyLt m x = true) ∧
    (filter_marker S m).Sublist S := by
  refine ⟨filter_marker_eq_filter S m, ?_, ?_⟩
  · intro x
    rw [filter_marker_eq_filter, List.mem_filter]
  · rw [filter_marker_eq_filter]
    exact List.filter_sublist S

theorem filter_prefix_go_true_eq (p : Str) :
    ∀ l, filter_prefix_go p l true = l.takeWhile (fun s => p.isPrefixOf s) := by
  intro l
  induction l with
  | nil => rfl
  | cons o r ih =>
    cases h : p.isPrefixOf o with
    | true => simp [filter_prefix_go, List.takeWhile_cons, h, ih]
    | false => simp [filter_prefix_go, List.takeWhile_cons, h]

theorem filter_prefix_go_false_eq (p : Str) :
    ∀ l, filter_prefix_go p l false =
      (l.dropWhile (fun s => !(p.isPrefixOf s))).takeWhile
        (fun s => p.isPrefixOf s) := by
  intro l
  induction l with
  | nil => rfl
  | cons o r ih =>
    cases h : p.isPrefixOf o with
    | true =>
      simp [filter_prefix_go, List.dropWhile_cons, h,
        filter_prefix_go_true_eq, List.takeWhile_cons]
    | false => simp [filter_prefix_go, List.dropWhile_cons, h, ih]

/-- C5: every element produced by `filter_prefix(S, prefix)` starts with
the prefix; the output is a sublist of the input (original order) and is
the contiguous matching run starting at the first match (drop the
leading non-matches, then take while matching); and once one match has
been emitted (`found = True`), the first non-matching name terminates
the iteration regardless of the rest of the input. -/
theorem C5_filter_prefix_run (S : List Str) (p : Str) :
    (∀ x ∈ filter_prefix S p, p.isPrefixOf x = true) ∧
    ( filter_prefix S p).Sublist S ∧
    filter_prefix S p =
      (S.dropWhile (fun s => !(p.isPrefixOf s))).takeWhile
        (fun s => p.isPrefixOf s) ∧
    (∀ x r, p.isPrefixOf x = false → filter_prefix_go p (x :: r) true = []) := by
  have he : filter_prefix S p =
      (S.dropWhile (fun s => !(p.isPrefixOf s))).takeWhile
        (fun s => p.isPrefixOf s) := filter_prefix_go_false_eq p S
  refine ⟨?_, ?_, he, ?_⟩
  · intro x hx
    rw [he] at hx
    exact List.mem_takeWhile_imp hx
  · rw [he]
    exact (List.takeWhile_sublist _).trans (List.dropWhile_sublist _)
  · intro x r h
    simp [filter_prefix_go, h]

/-- Witness for C5 at concrete inputs. -/
theorem C5_witness :
    (str "a").isPrefixOf (str "ab") = true ∧
    filter_prefix_go (str "a") [str "b"] true = [] :=
  ⟨(C5_filter_prefix_run [str "ab"] (str "a")).1 (str "ab") (by decide),
   (C5_filter_prefix_run [str "ab"] (str "a")).2.2.2 (str "b") [] (by decide)⟩

theorem filter_end_marker_eq_takeWhile (S : List Str) (em : Str) :
    filter_end_marker S em = S.takeWhile (fun o => pyLt o em) := by
  induction S with
  | nil => rfl
  | cons o r ih =>
    cases h : pyLt o em with
    | true => simp [filter_end_marker, List.takeWhile_cons, h, ih]
    | false => simp [filter_end_marker, List.takeWhile_cons, h]

/-- C6: `filter_end_marker(S, end_marker)` is the longest prefix of `S`
whose elements are all strictly below `end_marker` (it equals
`takeWhile`, is a prefix of the input, all its elements are below the
bound, and it contains every prefix of `S` whose elements are below the
bound); the `takeWhile` shape is exactly "stop at the first element
reaching the bound". -/
theorem C6_filter_end_marker_longest (S : List Str) (em : Str) :
    filter_end_marker S em = S.takeWhile (fun o => pyLt o em) ∧
    filter_end_marker S em <+: S ∧
    (∀ x ∈ filter_end_marker S em, pyLt x em = true) ∧
    (∀ t, t <+: S → (∀ x ∈ t, pyLt x em = true) →
      t <+: filter_end_marker S em) := by
  refine ⟨filter_end_marker_eq_takeWhile S em, ?_, ?_, ?_⟩
  · rw [filter_end_marker_eq_takeWhile]
    exact List.takeWhile_prefix _
  · intro x hx
    rw [filter_end_marker_eq_takeWhile] at hx
    have h2 := List.mem_takeWhile_imp hx
    simpa using h2
  · intro t ht hall
    rw [filter_end_marker_eq_takeWhile]
    exact prefix_takeWhile_of_all _ t S ht hall

/-- Witness for C6 at concrete inputs. -/
theorem C6_witness : [str "a"] <+: filter_end_marker [str "a", str "b"] (str "b") :=
  (C6_filter_end_marker_longest [str "a", str "b"] (str "b")).2.2.2
    [str "a"] (by decide) (by decide)

/-! ### The delimiter roll-up filter (claims C2, C3, C10) -/

/-! Step equations for the two `filter_delimiter` loops, one per branch
of the source's loop body. -/

theorem fdp_break {d : Nat} {p q n : Str} {rest : List Str} {skip : Option Str}
    (h1 : (!p.isEmpty && !(p.isPrefixOf n)) = true) :
    filter_delimiter_go_path d p q (n :: rest) skip = [] := by
  simp [filter_delimiter_go_path, h1]

theorem fdp_path {d : Nat} {p q n : Str} {rest : List Str} {skip : Option Str}
    (h1 : (!p.isEmpty && !(p.isPrefixOf n)) = false) (hq : n = q) :
    filter_delimiter_go_path d p q (n :: rest) skip =
      filter_delimiter_go_path d p q rest skip := by
  subst hq
  simp only [filter_delimiter_go_path, h1, Bool.false_eq_true, if_false]
  simp

theorem fdp_skip {d : Nat} {p q n : Str} {rest : List Str} {skip : Option Str}
    (h1 : (!p.isEmpty && !(p.isPrefixOf n)) = false) (hq : n ≠ q)
    (hs : skipActive n skip = true) :
    filter_delimiter_go_path d p q (n :: rest) skip =
      filter_delimiter_go_path d p q rest skip := by
  simp [filter_delimiter_go_path, h1, hq, hs]

theorem fdp_absorb {d : Nat} {p q n : Str} {rest : List Str} {skip : Option Str}
    {e : Nat} (h1 : (!p.isEmpty && !(p.isPrefixOf n)) = false) (hq : n ≠ q)
    (hs : skipActive n skip = false) (hf : strFind n d p.length = some e)
    (he : e + 1 < n.length) :
    filter_delimiter_go_path d p q (n :: rest) skip =
      filter_delimiter_go_path d p q rest (some (n.take e ++ [d + 1])) := by
  simp [filter_delimiter_go_path, h1, hq, hs, hf, he]

theorem fdp_leaf {d : Nat} {p q n : Str} {rest : List Str} {skip : Option Str}
    {e : Nat} (h1 : (!p.isEmpty && !(p.isPrefixOf n)) = false) (hq : n ≠ q)
    (hs : skipActive n skip = false) (hf : strFind n d p.length = some e)
    (he : ¬ (e + 1 < n.length)) :
    filter_delimiter_go_path d p q (n :: rest) skip =
      n :: filter_delimiter_go_path d p q rest none := by
  simp [filter_delimiter_go_path, h1, hq, hs, hf, he]

theorem fdp_leaf_nofind {d : Nat} {p q n : Str} {rest : List Str}
    {skip : Option Str} (h1 : (!p.isEmpty && !(p.isPrefixOf n)) = false)
    (hq : n ≠ q) (hs : skipActive n skip = false)
    (hf : strFind n d p.length = none) :
    filter_delimiter_go_path d p q (n :: rest) skip =
      n :: filter_delimiter_go_path d p q rest none := by
  simp [filter_delimiter_go_path, h1, hq, hs, hf]

theorem fdn_break {d : Nat} {p n : Str} {marker : Option Str}
    {rest : List Str} {skip : Option Str}
    (h1 : (!p.isEmpty && !(p.isPrefixOf n)) = true) :
    filter_delimiter_go_nopath d p marker (n :: rest) skip = [] := by
  simp [filter_delimiter_go_nopath, h1]

theorem fdn_skip {d : Nat} {p n : Str} {marker : Option Str}
    {rest : List Str} {skip : Option Str}
    (h1 : (!p.isEmpty && !(p.isPrefixOf n)) = false)
    (hs : skipActive n skip = true) :
    filter_delimiter_go_nopath d p marker (n :: rest) skip =
      filter_delimiter_go_nopath d p marker rest skip := by
  simp [filter_delimiter_go_nopath, h1, hs]

theorem fdn_rollup {d : Nat} {p n : Str} {marker : Option Str}
    {rest : List Str} {skip : Option Str} {e : Nat}
    (h1 : (!p.isEmpty && !(p.isPrefixOf n)) = false)
    (hs : skipActive n skip = false) (hf : strFind n d p.length = some e)
    (he : 0 < e) :
    filter_delimiter_go_nopath d p marker (n :: rest) skip =
      (if marker = some (n.take (e + 1)) then [] else [n.take (e + 1)]) ++
        filter_delimiter_go_nopath d p marker rest (some (n.take e ++ [d + 1])) := by
  simp [filter_delimiter_go_nopath, h1, hs, hf, he]

theorem fdn_leaf_zero {d : Nat} {p n : Str} {marker : Option Str}
    {rest : List Str} {skip : Option Str} {e : Nat}
    (h1 : (!p.isEmpty && !(p.isPrefixOf n)) = false)
    (hs : skipActive n skip = false) (hf : strFind n d p.length = some e)
    (he : ¬ (0 < e)) :
    filter_delimiter_go_nopath d p marker (n :: rest) skip =
      n :: filter_delimiter_go_nopath d p marker rest none := by
  simp [filter_delimiter_go_nopath, h1, hs, hf, he]

theorem fdn_leaf_nofind {d : Nat} {p n : Str} {marker : Option Str}
    {rest : List Str} {skip : Option Str}
    (h1 : (!p.isEmpty && !(p.isPrefixOf n)) = false)
    (hs : skipActive n skip = false) (hf : strFind n d p.length = none) :
    filter_delimiter_go_nopath d p marker (n :: rest) skip =
      n :: filter_delimiter_go_nopath d p marker rest none := by
  simp [filter_delimiter_go_nopath, h1, hs, hf]

/-- In path mode, every emitted name comes verbatim from the input,
differs from `path`, and has no delimiter-with-trailing-characters
occurrence at or after the prefix length. -/
theorem filter_delimiter_go_path_mem (d : Nat) (p : Str) (q : Str) :
    ∀ (objs : List Str) (skip : Option Str) (o : Str),
    o ∈ filter_delimiter_go_path d p q objs skip →
    o ∈ objs ∧ o ≠ q ∧
      ∀ e, strFind o d p.length = some e → ¬ (e + 1 < o.length) := by
  intro objs
  induction objs with
  | nil =>
    intro skip o h
    simp [filter_delimiter_go_path] at h
  | cons n rest ih =>
    intro skip o h
    by_cases hc1 : (!p.isEmpty && !(List.isPrefixOf p n)) = true
    · rw [fdp_break hc1] at h
      cases h
    · have hc1' : (!p.isEmpty && !(List.isPrefixOf p n)) = false := by
        simpa using hc1
      by_cases hq : n = q
      · rw [fdp_path hc1' hq] at h
        have := ih skip o h
        exact ⟨List.mem_cons_of_mem n this.1, this.2⟩
      · cases hs : skipActive n skip with
        | true =>
          rw [fdp_skip hc1' hq hs] at h
          have := ih skip o h
          exact ⟨List.mem_cons_of_mem n this.1, this.2⟩
        | false =>
          cases hfind : strFind n d p.length with
          | some e =>
            by_cases he : e + 1 < n.length
            · rw [fdp_absorb hc1' hq hs hfind he] at h
              have := ih _ o h
              exact ⟨List.mem_cons_of_mem n this.1, this.2⟩
            · rw [fdp_leaf hc1' hq hs hfind he, List.mem_cons] at h
              rcases h with rfl | h
              · refine ⟨List.mem_cons_self .., hq, ?_⟩
                intro e' he'
                rw [hfind] at he'
                cases he'
                exact he
              · have := ih _ o h
                exact ⟨List.mem_cons_of_mem n this.1, this.2⟩
          | none =>
            rw [fdp_leaf_nofind hc1' hq hs hfind, List.mem_cons] at h
            rcases h with rfl | h
            · refine ⟨List.mem_cons_self .., hq, ?_⟩
              intro e' he'
              rw [hfind] at he'
              cases he'
            · have := ih _ o h
              exact ⟨List.mem_cons_of_mem n this.1, this.2⟩

/-- C10: whenever `path` is set, `filter_delimiter` emits only names
drawn verbatim from its input (it never synthesizes a roll-up row), the
name equal to `path` is omitted, and every name containing the delimiter
at or after the prefix length with trailing characters is skipped, so no
such name appears in the output. -/
theorem C10_path_mode_verbatim (objs : List Str) (d : Nat) (p : Str)
    (marker : Option Str) (q : Str) :
    ∀ o ∈ filter_delimiter objs d p marker (some q),
      o ∈ objs ∧ o ≠ q ∧
        ∀ e, strFind o d p.length = some e → ¬ (e + 1 < o.length) :=
  fun o h => filter_delimiter_go_path_mem d p q objs none o h

/-- Witness for C10 at concrete inputs. -/
theorem C10_witness :
    (str "a") ∈ [str "a"] ∧ str "a" ≠ str "z" ∧
      ∀ e, strFind (str "a") 47 ([] : Str).length = some e →
        ¬ (e + 1 < (str "a").length) :=
  C10_path_mode_verbatim [str "a"] 47 [] none (str "z") (str "a") (by decide)

/-- C2 counterexample.  The claim's asymmetry is inverted in the code.
Default mode: the trailing-delimiter name `"a/"` is treated as a roll-up
row, so with `marker = "a/"` it is suppressed instead of being emitted
as a leaf.  Path mode: the trailing-delimiter name `"a/"` is emitted as
a leaf instead of being absorbed into a group. -/
theorem C2_trailing_delimiter_counterexample :
    filter_delimiter [str "a/"] 47 [] (some (str "a/")) none = [] ∧
    filter_delimiter [str "a/"] 47 [] (some (str "a/")) none ≠ [str "a/"] ∧
    filter_delimiter [str "a/"] 47 [] none (some (str "zz")) = [str "a/"] ∧
    filter_delimiter [str "a/"] 47 [] none (some (str "zz")) ≠ [] := by
  decide

/-- C2 (amended): for a name whose first delimiter occurrence at or
after the prefix length is its last character, the asymmetry is the
reverse of the claim: when `path` is unset, a trailing match at positive
index triggers roll-up (the name becomes its own group-prefix row,
suppressed when equal to `marker`, and the skip cursor is set); when
`path` is set, a trailing match is emitted as a leaf (only matches with
trailing characters are absorbed into a group). -/
theorem C2_trailing_delimiter_amended (d : Nat) (p n : Str)
    (marker : Option Str) (rest : List Str) (e : Nat)
    (h1 : p.isPrefixOf n = true) (h2 : strFind n d p.length = some e)
    (h3 : e + 1 = n.length) :
    (0 < e → filter_delimiter (n :: rest) d p marker none =
      (if marker = some n then [] else [n]) ++
        filter_delimiter_go_nopath d p marker rest (some (n.take e ++ [d + 1]))) ∧
    (∀ q, n ≠ q → filter_delimiter (n :: rest) d p marker (some q) =
      n :: filter_delimiter_go_path d p q rest none) := by
  have hb : (!p.isEmpty && !(p.isPrefixOf n)) = false := by simp [h1]
  constructor
  · intro he
    show filter_delimiter_go_nopath d p marker (n :: rest) none = _
    rw [fdn_rollup hb (rfl : skipActive n none = false) h2 he]
    have ht : n.take (e + 1) = n := by
      rw [h3]
      exact List.take_length ..
    rw [ht]
  · intro q hq
    show filter_delimiter_go_path d p q (n :: rest) none = _
    rw [fdp_leaf hb hq (rfl : skipActive n none = false) h2 (by omega)]

/-- Witness for C2 at concrete inputs (`n = "a/"`). -/
theorem C2_trailing_delimiter_witness :
    ( filter_delimiter [str "a/"] 47 [] (some (str "a/")) none =
      (if some (str "a/") = some (str "a/") then [] else [str "a/"]) ++
        filter_delimiter_go_nopath 47 [] (some (str "a/")) []
          (some ((str "a/").take 1 ++ [47 + 1]))) ∧
    ( filter_delimiter [str "a/"] 47 [] none (some (str "zz")) =
      str "a/" :: filter_delimiter_go_path 47 [] (str "zz") [] none) :=
  ⟨(C2_trailing_delimiter_amended 47 [] (str "a/") (some (str "a/")) [] 1
      (by decide) (by decide) (by decide)).1 (by decide),
   (C2_trailing_delimiter_amended 47 [] (str "a/") none [] 1
      (by decide) (by decide) (by decide)).2 (str "zz") (by decide)⟩

/-- Clearing an inactive skip cursor does not change the default-mode
loop's result. -/
theorem fdn_skip_none (d : Nat) (p : Str) (marker : Option Str) (n b : Str)
    (rest : List Str) (hns : pyLt n b = false) :
    filter_delimiter_go_nopath d p marker (n :: rest) (some b) =
      filter_delimiter_go_nopath d p marker (n :: rest) none := by
  by_cases h1 : (!p.isEmpty && !(List.isPrefixOf p n)) = true
  · rw [fdn_break h1, fdn_break h1]
  · have h1' : (!p.isEmpty && !(List.isPrefixOf p n)) = false := by
      simpa using h1
    have hs : skipActive n (some b) = false := hns
    cases hfind : strFind n d p.length with
    | some e =>
      by_cases he : 0 < e
      · rw [fdn_rollup h1' hs hfind he, fdn_rollup h1' (rfl : skipActive n none = false) hfind he]
      · rw [fdn_leaf_zero h1' hs hfind he, fdn_leaf_zero h1' (rfl : skipActive n none = false) hfind he]
    | none => rw [fdn_leaf_nofind h1' hs hfind, fdn_leaf_nofind h1' (rfl : skipActive n none = false) hfind]

/-- While the skip cursor is active, the default-mode loop drops every
name below the cursor (provided those names pass the prefix guard), and
resuming past them is the same as restarting with a clear cursor. -/
theorem fdn_skip_drop (d : Nat) (p : Str) (marker : Option Str) (b : Str) :
    ∀ objs : List Str,
    (∀ m ∈ objs, pyLt m b = true → p.isPrefixOf m = true) →
    filter_delimiter_go_nopath d p marker objs (some b) =
      filter_delimiter_go_nopath d p marker
        (objs.dropWhile (fun m => pyLt m b)) none := by
  intro objs
  induction objs with
  | nil => intro _; rfl
  | cons n rest ih =>
    intro hb
    rw [List.dropWhile_cons]
    cases hnb : pyLt n b with
    | true =>
      have hpre : p.isPrefixOf n = true := hb n (List.mem_cons_self ..) hnb
      have h1 : (!p.isEmpty && !(p.isPrefixOf n)) = false := by simp [hpre]
      have hs : skipActive n (some b) = true := hnb
      rw [fdn_skip h1 hs, if_pos (by simp [hnb])]
      exact ih (fun m hm => hb m (List.mem_cons_of_mem n hm))
    | false =>
      rw [fdn_skip_none d p marker n b rest hnb, if_neg (by simp [hnb])]

/-- The group step of the default-mode roll-up: a name that triggers a
group emits exactly one roll-up row (`n.take (e+1)`, suppressed when it
equals the marker), and every following name below the successor bound
`n.take e ++ [d+1]` — under sortedness, exactly the names extending the
group prefix — is skipped, after which the loop restarts cleanly. -/
theorem fdn_group_step (d : Nat) (p : Str) (marker : Option Str) (n : Str)
    (objs : List Str) (e : Nat) (h1 : p.isPrefixOf n = true)
    (h2 : strFind n d p.length = some e) (h3 : 0 < e)
    (hsorted : ∀ m ∈ objs, pyLt m n = false) :
    filter_delimiter (n :: objs) d p marker none =
      (if marker = some (n.take (e + 1)) then [] else [n.take (e + 1)]) ++
        filter_delimiter
          (objs.dropWhile (fun m => pyLt m (n.take e ++ [d + 1])))
          d p marker none := by
  have hb : (!p.isEmpty && !(p.isPrefixOf n)) = false := by simp [h1]
  have hg : n.take (e + 1) = n.take e ++ [d] := take_succ_of_strFind n d p.length e h2
  have hstart : p.length ≤ e := (strFind_spec n d p.length e h2).1
  show filter_delimiter_go_nopath d p marker (n :: objs) none = _
  rw [fdn_rollup hb (rfl : skipActive n none = false) h2 h3]
  congr 1
  refine (fdn_skip_drop d p marker (n.take e ++ [d + 1]) objs ?_).trans ?_
  · intro m hm hlt
    have hgn : (n.take (e + 1)).isPrefixOf n = true := take_isPrefixOf n (e + 1)
    have hnle : pyLt n (n.take (e + 1)) = false := isPrefixOf_not_pyLt _ n hgn
    have hmn : pyLt m n = false := hsorted m hm
    have hmg : pyLt m (n.take (e + 1)) = false :=
      pyLe_trans (n.take (e + 1)) n m hnle hmn
    rw [hg] at hmg
    have hpre_g : (n.take e ++ [d]).isPrefixOf m = true :=
      pyLt_interval (n.take e) d m hmg hlt
    have hp_g : p.isPrefixOf (n.take (e + 1)) = true :=
      isPrefixOf_take h1 (by omega)
    rw [hg] at hp_g
    exact isPrefixOf_trans hp_g hpre_g
  · rfl

/-- C3 (amended): for every sorted input, a name that triggers a group
(first delimiter occurrence at a positive index `e` at or after the
prefix length) produces exactly one roll-up row — the group prefix
`n.take (e+1)`, suppressed when equal to `marker` — and every subsequent
name below the group prefix's successor bound is skipped, the loop then
restarting on the remainder; a delimiter occurrence at index 0 does not
form a group (the source tests `end > 0`).  The spec's concrete example
holds: `["a/b", "a/c", "a/d/e", "b"]` with empty prefix and delimiter
`"/"` yields `["a/", "b"]`. -/
theorem C3_group_rollup_amended :
    (∀ (d : Nat) (p : Str) (marker : Option Str) (n : Str)
      (objs : List Str) (e : Nat), p.isPrefixOf n = true →
      strFind n d p.length = some e → 0 < e →
      (n :: objs).Pairwise (fun a b => pyLt b a = false) →
      filter_delimiter (n :: objs) d p marker none =
        (if marker = some (n.take (e + 1)) then [] else [n.take (e + 1)]) ++
          filter_delimiter
            (objs.dropWhile (fun m => pyLt m (n.take e ++ [d + 1])))
            d p marker none) ∧
    filter_delimiter [str "a/b", str "a/c", str "a/d/e", str "b"] 47 []
      none none = [str "a/", str "b"] := by
  constructor
  · intro d p marker n objs e h1 h2 h3 hsort
    exact fdn_group_step d p marker n objs e h1 h2 h3
      (List.pairwise_cons.mp hsort).1
  · decide

/-- C3 counterexample to the unrestricted claim: with empty prefix, a
name whose delimiter occurrence is at index 0 is emitted as a leaf, not
rolled up into the group prefix `"/"`. -/
theorem C3_group_rollup_counterexample :
    filter_delimiter [str "/a"] 47 [] none none = [str "/a"] ∧
    filter_delimiter [str "/a"] 47 [] none none ≠ [str "/"] := by
  decide

/-- Witness for C3's general part, instantiated at the head of the
spec's own example. -/
theorem C3_group_rollup_witness :
    filter_delimiter [str "a/b", str "a/c", str "a/d/e", str "b"] 47 []
      none none =
    (if (none : Option Str) = some ((str "a/b").take 2) then []
     else [(str "a/b").take 2]) ++
      filter_delimiter
        ([str "a/c", str "a/d/e", str "b"].dropWhile
          (fun m => pyLt m ((str "a/b").take 1 ++ [47 + 1])))
        47 [] none none :=
  C3_group_rollup_amended.1 47 [] none (str "a/b")
    [str "a/c", str "a/d/e", str "b"] 1 (by decide) (by decide) (by decide)
    (by decide)

/-! ### Step equations and length bounds for the assembly loops -/

theorem fullLoop_race {readM : Str → ReadRes} {createM : Str → CreateRes}
    {d : Option Nat} {flag : Bool} {limit : Nat} {o : Str} {rest : List Str}
    {n : Nat} (hr : readM o = ReadRes.race) :
    fullLoop readM createM d flag limit (o :: rest) n =
      fullLoop readM createM d flag limit rest n := by
  simp [fullLoop, hr]

theorem fullLoop_fatal {readM : Str → ReadRes} {createM : Str → CreateRes}
    {d : Option Nat} {flag : Bool} {limit : Nat} {o : Str} {rest : List Str}
    {n : Nat} (hr : readM o = ReadRes.fatal) :
    fullLoop readM createM d flag limit (o :: rest) n = Except.error () := by
  simp [fullLoop, hr]

theorem fullLoop_resolve_err {readM : Str → ReadRes} {createM : Str → CreateRes}
    {d : Option Nat} {flag : Bool} {limit : Nat} {o : Str} {rest : List Str}
    {n : Nat} {m0 : Option ObjMeta} (hr : readM o = ReadRes.ok m0)
    (hres : resolveMeta createM d o m0 = Except.error ()) :
    fullLoop readM createM d flag limit (o :: rest) n = Except.error () := by
  simp [fullLoop, hr, hres]

theorem fullLoop_skipdir {readM : Str → ReadRes} {createM : Str → CreateRes}
    {d : Option Nat} {flag : Bool} {limit : Nat} {o : Str} {rest : List Str}
    {n : Nat} {m0 m2 : Option ObjMeta} (hr : readM o = ReadRes.ok m0)
    (hres : resolveMeta createM d o m0 = Except.ok m2)
    (hskip : isImplicitDirSkip flag m2 = true) :
    fullLoop readM createM d flag limit (o :: rest) n =
      fullLoop readM createM d flag limit rest n := by
  simp [fullLoop, hr, hres, hskip]

theorem fullLoop_emit {readM : Str → ReadRes} {createM : Str → CreateRes}
    {d : Option Nat} {flag : Bool} {limit : Nat} {o : Str} {rest : List Str}
    {n : Nat} {m0 m2 : Option ObjMeta} (hr : readM o = ReadRes.ok m0)
    (hres : resolveMeta createM d o m0 = Except.ok m2)
    (hskip : isImplicitDirSkip flag m2 = false) :
    fullLoop readM createM d flag limit (o :: rest) n =
      Except.map (fun t => mkObjRow o m2 :: t)
        (if n + 1 ≥ limit then Except.ok []
         else fullLoop readM createM d flag limit rest (n + 1)) := by
  simp [fullLoop, hr, hres, hskip]

theorem revIf_length {α : Type} (b : Bool) (l : List α) :
    (revIf b l).length = l.length := by
  cases b <;> simp [revIf]

theorem map_revIf {α β : Type} (f : α → β) (b : Bool) (l : List α) :
    (revIf b l).map f = revIf b (l.map f) := by
  cases b <;> simp [revIf]

theorem plainLoop_length (limit : Nat) :
    ∀ (l : List Str) (n : Nat), (plainLoop limit l n).length ≤ max (limit - n) 1 := by
  intro l
  induction l with
  | nil => intro n; simp [plainLoop]
  | cons o rest ih =>
    intro n
    rw [plainLoop]
    by_cases h : n + 1 ≥ limit
    · rw [if_pos h]
      simp
    · rw [if_neg h]
      have := ih (n + 1)
      simp only [List.length_cons]
      omega

theorem fullLoop_length (readM : Str → ReadRes) (createM : Str → CreateRes)
    (d : Option Nat) (flag : Bool) (limit : Nat) :
    ∀ (l : List Str) (n : Nat) (t : List ObjRow),
    fullLoop readM createM d flag limit l n = Except.ok t →
    t.length ≤ max (limit - n) 1 := by
  intro l
  induction l with
  | nil =>
    intro n t h
    simp only [fullLoop, Except.ok.injEq] at h
    subst h
    simp
  | cons o rest ih =>
    intro n t h
    cases hr : readM o with
    | race =>
      rw [fullLoop_race hr] at h
      exact ih n t h
    | fatal =>
      rw [fullLoop_fatal hr] at h
      cases h
    | ok m0 =>
      cases hres : resolveMeta createM d o m0 with
      | error u =>
        cases u
        rw [fullLoop_resolve_err hr hres] at h
        cases h
      | ok m2 =>
        cases hskip : isImplicitDirSkip flag m2 with
        | true =>
          rw [fullLoop_skipdir hr hres hskip] at h
          exact ih n t h
        | false =>
          rw [fullLoop_emit hr hres hskip] at h
          by_cases hlim : n + 1 ≥ limit
          · rw [if_pos hlim] at h
            simp only [Except.map, Except.ok.injEq] at h
            subst h
            simp
          · rw [if_neg hlim] at h
            cases hF : fullLoop readM createM d flag limit rest (n + 1) with
            | error e =>
              rw [hF] at h
              simp [Except.map] at h
            | ok t' =>
              rw [hF] at h
              simp only [Except.map, Except.ok.injEq] at h
              subst h
              have := ih (n + 1) t' hF
              simp only [List.length_cons]
              omega

theorem contPlainLoop_length (limit : Nat) :
    ∀ (l : List Str) (n : Nat),
    (contPlainLoop limit l n).length ≤ max (limit - n) 1 := by
  intro l
  induction l with
  | nil => intro n; simp [contPlainLoop]
  | cons o rest ih =>
    intro n
    rw [contPlainLoop]
    by_cases h : n + 1 ≥ limit
    · rw [if_pos h]
      simp
    · rw [if_neg h]
      have := ih (n + 1)
      simp only [List.length_cons]
      omega

theorem contFullLoop_err {readM : Str → CReadRes} {createM : Str → CCreateRes}
    {limit : Nat} {c : Str} {rest : List Str} {n : Nat}
    (hr : readM c = CReadRes.err) :
    contFullLoop readM createM limit (c :: rest) n = Except.error () := by
  simp [contFullLoop, hr]

theorem contFullLoop_resolve_err {readM : Str → CReadRes}
    {createM : Str → CCreateRes} {limit : Nat} {c : Str} {rest : List Str}
    {n : Nat} {m0 : Option ContMeta} (hr : readM c = CReadRes.ok m0)
    (hres : resolveContMeta createM c m0 = Except.error ()) :
    contFullLoop readM createM limit (c :: rest) n = Except.error () := by
  simp [contFullLoop, hr, hres]

theorem contFullLoop_emit {readM : Str → CReadRes} {createM : Str → CCreateRes}
    {limit : Nat} {c : Str} {rest : List Str} {n : Nat}
    {m0 m2 : Option ContMeta} (hr : readM c = CReadRes.ok m0)
    (hres : resolveContMeta createM c m0 = Except.ok m2) :
    contFullLoop readM createM limit (c :: rest) n =
      Except.map (fun t => mkContRow c m2 :: t)
        (if n + 1 ≥ limit then Except.ok []
         else contFullLoop readM createM limit rest (n + 1)) := by
  simp [contFullLoop, hr, hres]

theorem contFullLoop_length (readM : Str → CReadRes) (createM : Str → CCreateRes)
    (limit : Nat) :
    ∀ (l : List Str) (n : Nat) (t : List ContRow),
    contFullLoop readM createM limit l n = Except.ok t →
    t.length ≤ max (limit - n) 1 := by
  intro l
  induction l with
  | nil =>
    intro n t h
    simp only [contFullLoop, Except.ok.injEq] at h
    subst h
    simp
  | cons c rest ih =>
    intro n t h
    cases hr : readM c with
    | err =>
      rw [contFullLoop_err hr] at h
      cases h
    | ok m0 =>
      cases hres : resolveContMeta createM c m0 with
      | error u =>
        cases u
        rw [contFullLoop_resolve_err hr hres] at h
        cases h
      | ok m2 =>
        rw [contFullLoop_emit hr hres] at h
        by_cases hlim : n + 1 ≥ limit
        · rw [if_pos hlim] at h
          simp only [Except.map, Except.ok.injEq] at h
          subst h
          simp
        · rw [if_neg hlim] at h
          cases hF : contFullLoop readM createM limit rest (n + 1) with
          | error e =>
            rw [hF] at h
            simp [Except.map] at h
          | ok t' =>
            rw [hF] at h
            simp only [Except.map, Except.ok.injEq] at h
            subst h
            have := ih (n + 1) t' hF
            simp only [List.length_cons]
            omega

/-! ### Claim C1: the limit cutoff -/

theorem list_objects_core_length (readM : Str → ReadRes)
    (createM : Str → CreateRes) (flag gs : Bool) (objs0 : List Str)
    (limit : Nat) (m em p : Option Str) (d : Option Nat) (path2 : Option Str)
    (ct : Option Str) (rev : Bool) (l : List ObjRow)
    (h : list_objects_core readM createM flag gs objs0 limit m em p d path2
      ct rev = Except.ok l) : l.length ≤ max limit 1 := by
  rw [list_objects_core] at h
  split at h
  · have hl : l = revIf rev (plainLoop limit (filterPipeline objs0 m em p d path2) 0) := by
      cases h
      rfl
    rw [hl, revIf_length]
    have := plainLoop_length limit (filterPipeline objs0 m em p d path2) 0
    omega
  · cases hF : fullLoop readM createM d flag limit
      (filterPipeline objs0 m em p d path2) 0 with
    | error e =>
      rw [hF] at h
      simp [Except.map] at h
    | ok t =>
      rw [hF] at h
      simp only [Except.map, Except.ok.injEq] at h
      subst h
      rw [revIf_length]
      have := fullLoop_length readM createM d flag limit
        (filterPipeline objs0 m em p d path2) 0 t hF
      omega

theorem list_containers_core_length (readM : Str → CReadRes)
    (createM : Str → CCreateRes) (gs : Bool) (cs0 : List Str) (limit : Nat)
    (m em p : Option Str) (d : Option Nat) (ct : Option Str) (rev : Bool)
    (l : List ContRow)
    (h : list_containers_core readM createM gs cs0 limit m em p d ct rev =
      Except.ok l) : l.length ≤ max limit 1 := by
  rw [list_containers_core] at h
  split at h
  · have hl : l = revIf rev (contPlainLoop limit (filterPipeline cs0 m em p d none) 0) := by
      cases h
      rfl
    rw [hl, revIf_length]
    have := contPlainLoop_length limit (filterPipeline cs0 m em p d none) 0
    omega
  · cases hF : contFullLoop readM createM limit
      (filterPipeline cs0 m em p d none) 0 with
    | error e =>
      rw [hF] at h
      simp [Except.map] at h
    | ok t =>
      rw [hF] at h
      simp only [Except.map, Except.ok.injEq] at h
      subst h
      rw [revIf_length]
      have := contFullLoop_length readM createM limit
        (filterPipeline cs0 m em p d none) 0 t hF
      omega

/-- C1 (amended): every successful listing call returns at most
`max limit 1` rows — at most `limit` rows whenever `limit ≥ 1`, but a
call with `limit == 0` does **not** yield an empty result: both assembly
loops append a row before testing the limit, so one row is produced when
the filter pipeline yields a surviving name. -/
theorem C1_limit_cutoff_amended :
    (∀ (readM : Str → ReadRes) (createM : Str → CreateRes) (flag gs : Bool)
      (objects : List Str) (limit : Nat) (marker em pfx : Option Str)
      (delim : Option Nat) (path ct : Option Str) (rev : Bool)
      (l : List ObjRow),
      list_objects_iter readM createM flag gs objects limit marker em pfx
        delim path ct rev = Except.ok l → l.length ≤ max limit 1) ∧
    (∀ (readM : Str → CReadRes) (createM : Str → CCreateRes) (gs : Bool)
      (containers : List Str) (limit : Nat) (marker em pfx : Option Str)
      (delim : Option Nat) (ct : Option Str) (rev : Bool) (l : List ContRow),
      list_containers_iter readM createM gs containers limit marker em pfx
        delim ct rev = Except.ok l → l.length ≤ max limit 1) := by
  constructor
  · intro readM createM flag gs objects limit marker em pfx delim path ct rev l h
    rw [list_objects_iter] at h
    split at h
    · cases h
      simp
    · exact list_objects_core_length _ _ _ _ _ _ _ _ _ _ _ _ _ _ h
  · intro readM createM gs containers limit marker em pfx delim ct rev l h
    rw [list_containers_iter] at h
    split at h
    · cases h
      simp
    · exact list_containers_core_length _ _ _ _ _ _ _ _ _ _ _ _ h

/-- C1 counterexample: with `limit = 0` and one surviving name, the
plain-mode loop appends the row before testing the limit, so the result
has one row rather than being empty. -/
theorem C1_limit_zero_counterexample :
    list_objects_iter (fun _ => ReadRes.fatal) (fun _ => CreateRes.fatal)
      false false [str "a"] 0 none none none none none (some textPlain)
      false = Except.ok [⟨str "a", some (str "0", 0, textPlain, [])⟩] ∧
    ([⟨str "a", some (str "0", 0, textPlain, [])⟩] : List ObjRow) ≠ [] := by
  decide

/-- Witness for C1 at concrete inputs (`limit = 2`, three names). -/
theorem C1_limit_cutoff_witness :
    ([⟨str "a", some (str "0", 0, textPlain, [])⟩,
      ⟨str "b", some (str "0", 0, textPlain, [])⟩] : List ObjRow).length ≤
      max 2 1 :=
  C1_limit_cutoff_amended.1 (fun _ => ReadRes.fatal) (fun _ => CreateRes.fatal)
    false false [str "a", str "b", str "c"] 2 none none none none none
    (some textPlain) false _ (by decide)

/-! ### Claim C7: reverse symmetry -/

theorem list_objects_core_reverse (readM : Str → ReadRes)
    (createM : Str → CreateRes) (flag gs : Bool) (objs0 : List Str)
    (limit : Nat) (m em p : Option Str) (d : Option Nat) (path2 : Option Str)
    (ct : Option Str) :
    list_objects_core readM createM flag gs objs0 limit m em p d path2 ct true =
      Except.map List.reverse
        (list_objects_core readM createM flag gs objs0 limit m em p d path2
          ct false) := by
  rw [list_objects_core, list_objects_core]
  split
  · simp [revIf, Except.map]
  · cases hF : fullLoop readM createM d flag limit
      (filterPipeline objs0 m em p d path2) 0 with
    | error e => simp [hF, Except.map]
    | ok t => simp [hF, Except.map, revIf]

theorem list_containers_core_reverse (readM : Str → CReadRes)
    (createM : Str → CCreateRes) (gs : Bool) (cs0 : List Str) (limit : Nat)
    (m em p : Option Str) (d : Option Nat) (ct : Option Str) :
    list_containers_core readM createM gs cs0 limit m em p d ct true =
      Except.map List.reverse
        (list_containers_core readM createM gs cs0 limit m em p d ct false) := by
  rw [list_containers_core, list_containers_core]
  split
  · simp [revIf, Except.map]
  · cases hF : contFullLoop readM createM limit
      (filterPipeline cs0 m em p d none) 0 with
    | error e => simp [hF, Except.map]
    | ok t => simp [hF, Except.map, revIf]

/-- C7: when both `marker` and `end_marker` are truthy, a listing with
`reverse = true` equals the reverse of the listing with
`reverse = false` and the two bounds swapped: the swap happens before
the ascending filters and the assembled row list is reversed at the end.
Holds for both `list_objects_iter` and `list_containers_iter`. -/
theorem C7_reverse_symmetry (marker em : Option Str)
    (h1 : pyTruthy marker = true) (h2 : pyTruthy em = true) :
    (∀ (readM : Str → ReadRes) (createM : Str → CreateRes) (flag gs : Bool)
      (objects : List Str) (limit : Nat) (pfx : Option Str)
      (delim : Option Nat) (path ct : Option Str),
      list_objects_iter readM createM flag gs objects limit marker em pfx
        delim path ct true =
      Except.map List.reverse
        (list_objects_iter readM createM flag gs objects limit em marker pfx
          delim path ct false)) ∧
    (∀ (readM : Str → CReadRes) (createM : Str → CCreateRes) (gs : Bool)
      (containers : List Str) (limit : Nat) (pfx : Option Str)
      (delim : Option Nat) (ct : Option Str),
      list_containers_iter readM createM gs containers limit marker em pfx
        delim ct true =
      Except.map List.reverse
        (list_containers_iter readM createM gs containers limit em marker pfx
          delim ct false)) := by
  constructor
  · intro readM createM flag gs objects limit pfx delim path ct
    rw [list_objects_iter, list_objects_iter]
    by_cases hemp : objects.isEmpty = true
    · rw [if_pos hemp, if_pos hemp]
      rfl
    · rw [if_neg hemp, if_neg hemp]
      simp only [h1, h2, Bool.and_true, Bool.and_false, Bool.true_and,
        if_true, if_false, Bool.and_self]
      exact list_objects_core_reverse readM createM flag gs (pySort objects)
        limit em marker _ _ _ ct
  · intro readM createM gs containers limit pfx delim ct
    rw [list_containers_iter, list_containers_iter]
    by_cases hemp : containers.isEmpty = true
    · rw [if_pos hemp, if_pos hemp]
      rfl
    · rw [if_neg hemp, if_neg hemp]
      simp only [h1, h2, Bool.and_true, Bool.and_false, Bool.true_and,
        if_true, if_false, Bool.and_self]
      exact list_containers_core_reverse readM createM gs (pySort containers)
        limit em marker _ delim ct

/-- Witness for C7 at concrete inputs. -/
theorem C7_reverse_symmetry_witness :
    list_objects_iter (fun _ => ReadRes.ok none) (fun _ => CreateRes.race)
      true false [str "a", str "b", str "c"] 10 (some (str "a"))
      (some (str "c")) none none none none true =
    Except.map List.reverse
      (list_objects_iter (fun _ => ReadRes.ok none) (fun _ => CreateRes.race)
        true false [str "a", str "b", str "c"] 10 (some (str "c"))
        (some (str "a")) none none none none false) :=
  (C7_reverse_symmetry (some (str "a")) (some (str "c")) (by decide)
    (by decide)).1 (fun _ => ReadRes.ok none) (fun _ => CreateRes.race)
    true false [str "a", str "b", str "c"] 10 none none none none

/-! ### Claim C8: metadata races during full-mode assembly -/

/-- C8 (amended): a not-found/stale failure of the metadata read drops
exactly that row and the loop continues with no error (first conjunct:
the claim's first half, confirmed).  But when the stored metadata is
present and invalid and re-synthesis fails with the same race, the name
is **not** dropped: the swallowed error leaves the invalid stored
metadata in place and the row is emitted with it (second conjunct,
stated here with the implicit-dir configuration allowing directory
placeholders so the separate dir-skip rule does not interfere). -/
theorem C8_metadata_race_amended :
    (∀ (readM : Str → ReadRes) (createM : Str → CreateRes) (d : Option Nat)
      (flag : Bool) (limit : Nat) (o : Str) (rest : List Str) (n : Nat),
      readM o = ReadRes.race →
      fullLoop readM createM d flag limit (o :: rest) n =
        fullLoop readM createM d flag limit rest n) ∧
    (∀ (readM : Str → ReadRes) (createM : Str → CreateRes) (d : Option Nat)
      (limit : Nat) (o : Str) (rest : List Str) (n : Nat) (m : ObjMeta),
      readM o = ReadRes.ok (some m) → m.validObject = false →
      createM (cleanObj d o) = CreateRes.race →
      fullLoop readM createM d true limit (o :: rest) n =
        Except.map
          (fun t => (⟨o, some (m.timestamp, m.contentLength, m.contentType,
            m.etag)⟩ : ObjRow) :: t)
          (if n + 1 ≥ limit then Except.ok []
           else fullLoop readM createM d true limit rest (n + 1))) := by
  constructor
  · intro readM createM d flag limit o rest n hr
    exact fullLoop_race hr
  · intro readM createM d limit o rest n m hr hv hc
    have hres : resolveMeta createM d o (some m) = Except.ok (some m) := by
      simp [resolveMeta, hv, hc]
    have hskip : isImplicitDirSkip true (some m) = false := rfl
    exact fullLoop_emit hr hres hskip

/-- C8 counterexample: stored metadata present but invalid, synthesis
races — the row is emitted with the stale metadata instead of being
dropped as the claim states. -/
theorem C8_invalid_synthesis_counterexample :
    list_objects_iter
      (fun _ => ReadRes.ok (some ⟨str "1", 5, str "text/x", str "e",
        false, false⟩))
      (fun _ => CreateRes.race) true false [str "x"] 10 none none none none
      none none false =
      Except.ok [⟨str "x", some (str "1", 5, str "text/x", str "e")⟩] ∧
    (Except.ok ([] : List ObjRow) : Except Unit (List ObjRow)) ≠
      Except.ok [(⟨str "x", some (str "1", 5, str "text/x", str "e")⟩ :
        ObjRow)] := by
  decide

/-- Witness for C8 at concrete inputs. -/
theorem C8_metadata_race_witness :
    fullLoop (fun _ => ReadRes.race) (fun _ => CreateRes.fatal) none true 10
      [str "x"] 0 = fullLoop (fun _ => ReadRes.race)
        (fun _ => CreateRes.fatal) none true 10 [] 0 ∧
    fullLoop
      (fun _ => ReadRes.ok (some ⟨str "1", 5, str "text/x", str "e",
        false, false⟩))
      (fun _ => CreateRes.race) none true 10 [str "x"] 0 =
      Except.map
        (fun t => (⟨str "x", some (str "1", 5, str "text/x", str "e")⟩ :
          ObjRow) :: t)
        (if 0 + 1 ≥ 10 then Except.ok []
         else fullLoop
           (fun _ => ReadRes.ok (some ⟨str "1", 5, str "text/x", str "e",
             false, false⟩))
           (fun _ => CreateRes.race) none true 10 [] (0 + 1)) :=
  ⟨C8_metadata_race_amended.1 (fun _ => ReadRes.race)
      (fun _ => CreateRes.fatal) none true 10 (str "x") [] 0 rfl,
   C8_metadata_race_amended.2
      (fun _ => ReadRes.ok (some ⟨str "1", 5, str "text/x", str "e",
        false, false⟩))
      (fun _ => CreateRes.race) none 10 (str "x") [] 0
      ⟨str "1", 5, str "text/x", str "e", false, false⟩ rfl rfl rfl⟩

/-! ### Claim C9: plain-mode versus full-mode names -/

/-- When every read succeeds, synthesis never fails fatally, and the
implicit-dir flag is on, the full-mode loop produces exactly the names
of the plain-mode loop. -/
theorem fullLoop_names (readM : Str → ReadRes) (createM : Str → CreateRes)
    (d : Option Nat) (limit : Nat)
    (hr : ∀ s, ∃ mo, readM s = ReadRes.ok mo)
    (hc : ∀ s, createM s ≠ CreateRes.fatal) :
    ∀ (l : List Str) (n : Nat),
    Except.map (List.map ObjRow.name) (fullLoop readM createM d true limit l n) =
      Except.ok ((plainLoop limit l n).map ObjRow.name) := by
  intro l
  induction l with
  | nil => intro n; rfl
  | cons o rest ih =>
    intro n
    obtain ⟨mo, hmo⟩ := hr o
    have hres : ∃ m2, resolveMeta createM d o mo = Except.ok m2 := by
      unfold resolveMeta
      by_cases hval : invalidMeta mo = true
      · rw [if_pos hval]
        cases hcr : createM (cleanObj d o) with
        | race => exact ⟨mo, rfl⟩
        | fatal => exact absurd hcr (hc _)
        | ok m1 => exact ⟨some m1, rfl⟩
      · rw [if_neg hval]
        exact ⟨mo, rfl⟩
    obtain ⟨m2, hres⟩ := hres
    have hskip : isImplicitDirSkip true m2 = false := rfl
    rw [fullLoop_emit hmo hres hskip, plainLoop]
    by_cases hlim : n + 1 ≥ limit
    · rw [if_pos hlim, if_pos hlim]
      simp [Except.map, mkObjRow]
    · rw [if_neg hlim, if_neg hlim]
      have hih := ih (n + 1)
      cases hF : fullLoop readM createM d true limit rest (n + 1) with
      | error e =>
        rw [hF] at hih
        simp [Except.map] at hih
      | ok t =>
        rw [hF] at hih
        simp only [Except.map, Except.ok.injEq] at hih ⊢
        simp [mkObjRow, hih]

/-- Core-level version of the amended C9: with benign oracles and the
implicit-dir flag on, full mode and plain mode produce the same names. -/
theorem list_objects_core_names (readM : Str → ReadRes)
    (createM : Str → CreateRes) (hr : ∀ s, ∃ mo, readM s = ReadRes.ok mo)
    (hc : ∀ s, createM s ≠ CreateRes.fatal) (objs0 : List Str) (limit : Nat)
    (m em p : Option Str) (d : Option Nat) (path2 : Option Str) (rev : Bool) :
    Except.map (List.map ObjRow.name)
      (list_objects_core readM createM true false objs0 limit m em p d path2
        none rev) =
    Except.map (List.map ObjRow.name)
      (list_objects_core readM createM true false objs0 limit m em p d path2
        (some textPlain) rev) := by
  rw [list_objects_core, list_objects_core]
  have hfullc : ¬ ((decide ((none : Option Str) = some textPlain) || false) = true) := by
    decide
  have hplainc : (decide (some textPlain = some textPlain) || false) = true := by
    decide
  rw [if_neg hfullc, if_pos hplainc]
  have hnames := fullLoop_names readM createM d limit hr hc
    (filterPipeline objs0 m em p d path2) 0
  cases hF : fullLoop readM createM d true limit
      (filterPipeline objs0 m em p d path2) 0 with
  | error e =>
    rw [hF] at hnames
    simp [Except.map] at hnames
  | ok t =>
    rw [hF] at hnames
    simp only [Except.map, Except.ok.injEq] at hnames ⊢
    rw [map_revIf, map_revIf, hnames]

/-- C9 (amended): the names returned in plain mode equal the names
returned in full mode for identical parameters, **provided** no name
races away between enumeration and metadata resolution (every read
returns a result), synthesis never fails fatally, and no row is removed
by the implicit-directory skip (here: the configuration flag allows
implicit directory objects); without those provisos full mode can drop
rows that plain mode keeps. -/
theorem C9_plain_equivalence_amended (readM : Str → ReadRes)
    (createM : Str → CreateRes) (hr : ∀ s, ∃ mo, readM s = ReadRes.ok mo)
    (hc : ∀ s, createM s ≠ CreateRes.fatal) :
    ∀ (objects : List Str) (limit : Nat) (marker em pfx : Option Str)
      (delim : Option Nat) (path : Option Str) (rev : Bool),
    Except.map (List.map ObjRow.name)
      (list_objects_iter readM createM true false objects limit marker em pfx
        delim path none rev) =
    Except.map (List.map ObjRow.name)
      (list_objects_iter readM createM true false objects limit marker em pfx
        delim path (some textPlain) rev) := by
  intro objects limit marker em pfx delim path rev
  rw [list_objects_iter, list_objects_iter]
  by_cases hemp : objects.isEmpty = true
  · rw [if_pos hemp, if_pos hemp]
  · rw [if_neg hemp, if_neg hemp]
    exact list_objects_core_names readM createM hr hc (pySort objects) limit
      _ _ _ _ _ rev

/-- C9 counterexample: a placeholder directory object (content type
`DIR_TYPE`, not a first-class object) with the implicit-dir flag off is
skipped by full mode but listed by plain mode, so the names differ even
over the same snapshot. -/
theorem C9_plain_equivalence_counterexample :
    list_objects_iter
      (fun _ => ReadRes.ok (some ⟨str "1", 5, DIR_TYPE, str "e", true, false⟩))
      (fun _ => CreateRes.fatal) false false [str "d"] 10 none none none none
      none none false = Except.ok [] ∧
    list_objects_iter
      (fun _ => ReadRes.ok (some ⟨str "1", 5, DIR_TYPE, str "e", true, false⟩))
      (fun _ => CreateRes.fatal) false false [str "d"] 10 none none none none
      none (some textPlain) false =
      Except.ok [⟨str "d", some (str "0", 0, textPlain, [])⟩] ∧
    Except.map (List.map ObjRow.name)
      (list_objects_iter
        (fun _ => ReadRes.ok (some ⟨str "1", 5, DIR_TYPE, str "e", true,
          false⟩))
        (fun _ => CreateRes.fatal) false false [str "d"] 10 none none none
        none none none false) ≠
    Except.map (List.map ObjRow.name)
      (list_objects_iter
        (fun _ => ReadRes.ok (some ⟨str "1", 5, DIR_TYPE, str "e", true,
          false⟩))
        (fun _ => CreateRes.fatal) false false [str "d"] 10 none none none
        none none (some textPlain) false) := by
  refine ⟨by decide, by decide, ?_⟩
  decide

/-- Witness for C9 at concrete inputs. -/
theorem C9_plain_equivalence_witness :
    Except.map (List.map ObjRow.name)
      (list_objects_iter (fun _ => ReadRes.ok none) (fun _ => CreateRes.race)
        true false [str "a", str "b"] 5 none none none none none none false) =
    Except.map (List.map ObjRow.name)
      (list_objects_iter (fun _ => ReadRes.ok none) (fun _ => CreateRes.race)
        true false [str "a", str "b"] 5 none none none none none
        (some textPlain) false) :=
  C9_plain_equivalence_amended (fun _ => ReadRes.ok none)
    (fun _ => CreateRes.race) (fun _ => ⟨none, rfl⟩)
    (fun _ h => CreateRes.noConfusion h)
    [str "a", str "b"] 5 none none none none none false

end DiskDir
